import Mathlib

set_option maxRecDepth 100000

/-!
Verification of the conllx-view dependency-graph viewer core.

The definitions below are a shallow embedding of the Rust sources:
  * `src/graph.rs`  — `DependencyNode`, `DependencyGraph`,
    `From<Sentence> for DependencyGraph`, `escape_str`, `graph_to_dot`,
    `graph_to_tikz`;
  * `src/model.rs`  — `StatefulTreebankModel` (`set_idx`, `first`, `next`,
    `previous`, `tokens`, `handle`, `dependency_tree_dot`);
  * `src/main.rs`   — `save_dot`, `save_tikz`;
  * `src/error.rs`  — `ViewerError::NoGraphSelected`.

Rust `usize` arithmetic is modelled as natural numbers that wrap modulo
`2 ^ 64` (release-build semantics); `Vec` indexing and `expect`-panics are
modelled as `Option`/`Except` failures.  Petgraph's `Graph` arena is
modelled as the list of nodes (node index = list position, matching
insertion order) together with the list of edges in insertion order, an
edge being `(source index, target index, weight)`.
-/

/-- A CoNLL-X token as used by `graph.rs`: surface form, optional head
(0 = root), optional dependency relation.  The `marked` field abstracts the
derived boolean `features().map(as_map).map(|m| m.contains_key("mark"))
.unwrap_or(false)` computed by both serializers. -/
structure Token where
  form : String
  head : Option Nat
  headRel : Option String
  marked : Bool
deriving DecidableEq, Repr

/-- `DependencyNode` from `graph.rs`: a token plus its zero-based offset. -/
structure DependencyNode where
  token : Token
  offset : Nat
deriving DecidableEq, Repr

/-- `DependencyGraph` from `graph.rs`, with petgraph's arena graph embedded
as the node list (node index = position) and the edge list in creation
order; an edge is `(source, target, label)`. -/
structure DependencyGraph where
  nodes : List DependencyNode
  edges : List (Nat × Nat × String)
deriving DecidableEq, Repr

/-- The node-building pass of `From<Sentence> for DependencyGraph`
(`sentence.into_iter().enumerate().map(...)`), carrying the running
offset. -/
def mkNodes : Nat → List Token → List DependencyNode
  | _, [] => []
  | off, t :: ts => ⟨t, off⟩ :: mkNodes (off + 1) ts

/-- The edge-building loop of `From<Sentence> for DependencyGraph`.
`n` is the total node count, the second argument the running token index.
Per token, in source order: `head_rel().expect("Dependency relation
missing")`, then `head.expect("Token does not have a head")`; if the head
is non-zero, `nodes[head - 1]` (panicking when out of bounds) and the edge
`(head - 1, idx, rel)` is appended.  Panics are modelled as errors. -/
def edgeListAux (n : Nat) : Nat → List Token → Except String (List (Nat × Nat × String))
  | _, [] => Except.ok []
  | idx, tok :: rest =>
    match tok.headRel with
    | none => Except.error "Dependency relation missing"
    | some rel =>
      match tok.head with
      | none => Except.error "Token does not have a head"
      | some hd =>
        if hd = 0 then
          edgeListAux n (idx + 1) rest
        else if hd - 1 < n then
          (edgeListAux n (idx + 1) rest).map (fun tl => (hd - 1, idx, rel) :: tl)
        else
          Except.error "index out of bounds"

/-- `From<Sentence> for DependencyGraph` (`graph.rs` lines 19–52): all
nodes are created first, then the edge loop runs; any `expect`/indexing
panic aborts the conversion. -/
def fromSentence (s : List Token) : Except String DependencyGraph :=
  (edgeListAux s.length 0 s).map (fun es => ⟨mkNodes 0 s, es⟩)

/-- Character-level embedding of `escape_str` (`graph.rs` lines 127–132):
`s.replace('"', "\\\"")` rewrites every double-quote character to a
backslash followed by a double quote and leaves all other characters
untouched. -/
def escapeChars : List Char → List Char
  | [] => []
  | c :: cs => if c = '"' then '\\' :: '"' :: escapeChars cs else c :: escapeChars cs

/-- `escape_str` on strings. -/
def escapeStr (s : String) : String := ⟨escapeChars s.data⟩

/-- `graph_to_dot` (`graph.rs` lines 134–186): header, then one node
statement per node in index order (marked nodes get a `fontcolor`
attribute), the edge style line, then one edge statement per edge in
creation order.  The node and edge loops mutate a string buffer, modelled
as folds. -/
def graphToDot (g : DependencyGraph) : String :=
  let s0 := "digraph deptree \x7b\n"
    ++ "graph [charset = \"UTF-8\"]\n"
    ++ "node [shape=plaintext, height=0, width=0, fontsize=12, fontname=\"Helvetica\"]\n"
  let s1 := g.nodes.enum.foldl
    (fun acc p =>
      if p.2.token.marked then
        acc ++ "n" ++ toString p.1 ++ "[label=\"" ++ escapeStr p.2.token.form
          ++ "\", fontcolor=\"firebrick3\"];\n"
      else
        acc ++ "n" ++ toString p.1 ++ "[label=\"" ++ escapeStr p.2.token.form ++ "\"];\n")
    s0
  let s2 := s1 ++ "edge [color=\"#4b0082\", fontsize=\"8\", fontname=\"Courier New\"]\n"
  let s3 := g.edges.foldl
    (fun acc e =>
      acc ++ "n" ++ toString e.1 ++ " -> n" ++ toString e.2.1 ++ "[label=\""
        ++ escapeStr e.2.2 ++ "\"];\n")
    s2
  s3 ++ "\x7d"

/-- `graph_to_tikz` (`graph.rs` lines 188–235): LaTeX preamble, the
`deptext` line joining the (unescaped) forms with `" \& "` (marked forms
wrapped in `\underline`), then one `\depedge` command per edge in creation
order with 1-based endpoints and the `escape_str`-escaped label, then the
postamble. -/
def graphToTikz (g : DependencyGraph) : String :=
  let s0 := "\\documentclass\x7bstandalone\x7d\n\n"
    ++ "\\usepackage\x7btikz-dependency\x7d\n\n"
    ++ "\\begin\x7bdocument\x7d\n\n"
    ++ "\\begin\x7bdependency\x7d\n"
    ++ "\\begin\x7bdeptext\x7d"
  let s1 := s0 ++ String.intercalate " \\& "
    (g.nodes.map (fun nd =>
      if nd.token.marked then "\\underline\x7b" ++ nd.token.form ++ "\x7d"
      else nd.token.form))
  let s2 := s1 ++ "\\\\\n\\end\x7bdeptext\x7d\n"
  let s3 := g.edges.foldl
    (fun acc e =>
      acc ++ "\\depedge\x7b" ++ toString (e.1 + 1) ++ "\x7d\x7b" ++ toString (e.2.1 + 1)
        ++ "\x7d\x7b" ++ escapeStr e.2.2 ++ "\x7d\n")
    s2
  s3 ++ "\\end\x7bdependency\x7d\n\n" ++ "\\end\x7bdocument\x7d"

/-- `usize` wraps modulo `2 ^ 64`. -/
def usizeSize : Nat := 2 ^ 64

/-- `StatefulTreebankModel` (`model.rs` lines 11–83): the treebank store,
the cursor index, and the registered callbacks.  Callbacks are opaque, so
the state records `events`, the number of `callbacks()` invocation passes
(each pass runs every registered callback once). -/
structure Cursor where
  treebank : List DependencyGraph
  idx : Nat
  events : Nat
deriving DecidableEq, Repr

/-- `set_idx` (`model.rs` lines 72–78): stores the new index only when it
is in range, then unconditionally runs `self.callbacks()`. -/
def Cursor.set_idx (st : Cursor) (i : Nat) : Cursor :=
  let st1 := if i < st.treebank.length then { st with idx := i } else st
  { st1 with events := st1.events + 1 }

/-- `first` (`model.rs` lines 46–48): `self.set_idx(0)`. -/
def Cursor.first (st : Cursor) : Cursor :=
  st.set_idx 0

/-- `next` (`model.rs` lines 62–65): `self.set_idx(idx + 1)`, with `usize`
wrapping. -/
def Cursor.next (st : Cursor) : Cursor :=
  st.set_idx ((st.idx + 1) % usizeSize)

/-- The value of `idx - 1` on `usize`: in release builds the subtraction
wraps modulo `2 ^ 64` (in debug builds it panics when `idx = 0`). -/
def prevIdx (i : Nat) : Nat := (i + (usizeSize - 1)) % usizeSize

/-- `previous` (`model.rs` lines 67–70): `self.set_idx(idx - 1)` with the
wrapping `usize` subtraction. -/
def Cursor.previous (st : Cursor) : Cursor :=
  st.set_idx (prevIdx st.idx)

/-- Modelled from the spec: `push(graph)` of the stateful cursor is absent
from `src/model.rs` (only its caller `main.rs` is present).  Spec §4.5:
it appends the graph to the store, leaves `idx` at its prior value, and
fires notifications (one `callbacks()` pass). -/
def Cursor.push (st : Cursor) (g : DependencyGraph) : Cursor :=
  { treebank := st.treebank ++ [g], idx := st.idx, events := st.events + 1 }

/-- Modelled from the spec: `graph()` is absent from `src/model.rs` (only
its caller `main.rs` is present).  Spec §4.5: "returns the graph at `idx`,
or nothing if the store is empty". -/
def Cursor.graphAt (st : Cursor) : Option DependencyGraph :=
  st.treebank.get? st.idx

/-- `tokens` (`model.rs` lines 80–82 and 119–128): reads
`self.treebank[idx]` — a panicking `Vec` index, modelled as `get?` — and
collects every node's form. -/
def Cursor.tokensAt (st : Cursor) : Option (List String) :=
  (st.treebank.get? st.idx).map (fun g => g.nodes.map (fun nd => nd.token.form))

/-- `handle` (`model.rs` lines 50–52 and 105–108): `svg(idx)` renders
`graph_to_dot(&self.treebank[idx])` and pipes it to the external renderer;
the model stops at the DOT text handed over, the indexing again modelled
as `get?`. -/
def Cursor.handleDot (st : Cursor) : Option String :=
  (st.treebank.get? st.idx).map graphToDot

/-- `dependency_tree_dot` (`model.rs` lines 85–89):
`graph_to_dot(&self.inner.treebank[self.idx])`. -/
def Cursor.dependencyTreeDot (st : Cursor) : Option String :=
  (st.treebank.get? st.idx).map graphToDot

/-- `ViewerError` (`error.rs`). -/
inductive ViewerError where
  | NoGraphSelected
deriving DecidableEq, Repr

/-- `save_dot` (`main.rs` lines 307–320): requires a selected graph
(`NoGraphSelected` otherwise), then produces the file `s<idx + 1>.dot`
holding the DOT serialization; modelled as the (filename, contents)
pair. -/
def save_dot (st : Cursor) : Except ViewerError (String × String) :=
  match st.graphAt with
  | none => Except.error ViewerError.NoGraphSelected
  | some g => Except.ok ("s" ++ toString (st.idx + 1) ++ ".dot", graphToDot g)

/-- `save_tikz` (`main.rs` lines 322–335): as `save_dot`, with the file
`s<idx + 1>.tikz` holding the TikZ serialization. -/
def save_tikz (st : Cursor) : Except ViewerError (String × String) :=
  match st.graphAt with
  | none => Except.error ViewerError.NoGraphSelected
  | some g => Except.ok ("s" ++ toString (st.idx + 1) ++ ".tikz", graphToTikz g)

/-- Modelled from the spec: the event-categorized stateful cursor revision
(`ModelUpdate` categories `Any`, `TreeSelection`, `TreebankLen`) is absent
from `src/model.rs` (only its caller `main.rs` is present).  The state
counts the `TreeSelection` and `TreebankLen` notifications fired. -/
structure EventCursor where
  treebank : List DependencyGraph
  idx : Nat
  selEvents : Nat
  lenEvents : Nat
deriving DecidableEq, Repr

/-- Modelled from the spec (§4.5): `push(graph)` appends to the store,
fires `TreebankLen`, additionally fires `TreeSelection` only if the store
was empty before this push, and leaves `idx` at its prior value. -/
def EventCursor.push (st : EventCursor) (g : DependencyGraph) : EventCursor :=
  { treebank := st.treebank ++ [g],
    idx := st.idx,
    selEvents := st.selEvents + (if st.treebank.isEmpty then 1 else 0),
    lenEvents := st.lenEvents + 1 }

/-- Modelled from the spec (§4.5): `graph()` returns the graph at `idx`,
or nothing if the store is empty. -/
def EventCursor.graphAt (st : EventCursor) : Option DependencyGraph :=
  st.treebank.get? st.idx

/-- The cursor operations of spec §4.5 reachable from the initial state. -/
inductive CursorOp where
  | push (g : DependencyGraph)
  | first
  | next
  | previous
deriving Repr

/-- One cursor operation applied to a state. -/
def applyOp (st : Cursor) : CursorOp → Cursor
  | CursorOp.push g => st.push g
  | CursorOp.first => st.first
  | CursorOp.next => st.next
  | CursorOp.previous => st.previous

/-- Modelled from the spec: the cursor is created empty
(`StatefulTreebankModel::new()` is absent from `src/model.rs`); the index
starts at 0, no notifications have fired. -/
def initialCursor : Cursor := ⟨[], 0, 0⟩

/-- A sequence of operations run from the initial state. -/
def runOps (ops : List CursorOp) : Cursor :=
  ops.foldl applyOp initialCursor

/-- The fixed TikZ preamble up to and including `\begin{deptext}`. -/
def tikzPre : String :=
  "\\documentclass\x7bstandalone\x7d\n\n"
    ++ "\\usepackage\x7btikz-dependency\x7d\n\n"
    ++ "\\begin\x7bdocument\x7d\n\n"
    ++ "\\begin\x7bdependency\x7d\n"
    ++ "\\begin\x7bdeptext\x7d"

/-- The fixed TikZ text between the `deptext` entries and the edge
commands. -/
def tikzMid : String := "\\\\\n\\end\x7bdeptext\x7d\n"

/-- The fixed TikZ postamble. -/
def tikzPost : String := "\\end\x7bdependency\x7d\n\n" ++ "\\end\x7bdocument\x7d"

/-- One `deptext` entry: the node's form, wrapped in `\underline` when the
node is marked.  The form is emitted as-is, without `escape_str`. -/
def tikzEntryOfNode (nd : DependencyNode) : String :=
  if nd.token.marked then "\\underline\x7b" ++ nd.token.form ++ "\x7d"
  else nd.token.form

/-- One `\depedge` command: 1-based source and target indices and the
escaped relation label. -/
def depedgeCmd (e : Nat × Nat × String) : String :=
  "\\depedge\x7b" ++ toString (e.1 + 1) ++ "\x7d\x7b" ++ toString (e.2.1 + 1)
    ++ "\x7d\x7b" ++ escapeStr e.2.2 ++ "\x7d\n"

/-- The block of `\depedge` commands in edge-creation order. -/
def depedgeBlock : List (Nat × Nat × String) → String
  | [] => ""
  | e :: es => depedgeCmd e ++ depedgeBlock es

/-- A one-node graph whose form contains a double quote. -/
def gQuote : DependencyGraph :=
  ⟨[⟨⟨"A\"B", some 0, some "root", false⟩, 0⟩], []⟩

/-- A two-node graph with one edge whose relation label contains a double
quote. -/
def gEdgeQuote : DependencyGraph :=
  ⟨[⟨⟨"u", some 0, some "root", false⟩, 0⟩,
    ⟨⟨"v", some 1, some "X\"Y", false⟩, 1⟩],
   [(0, 1, "X\"Y")]⟩

/-- A two-node, one-edge graph with plain forms `A` and `B`. -/
def gAB : DependencyGraph :=
  ⟨[⟨⟨"A", some 0, some "root", false⟩, 0⟩,
    ⟨⟨"B", some 1, some "dep", false⟩, 1⟩],
   [(0, 1, "dep")]⟩

/-- The spec's end-to-end example sentence ("Cats chase mice" with heads
`[2, 0, 2]`). -/
def demoSentence : List Token :=
  [⟨"Cats", some 2, some "nsubj", false⟩,
   ⟨"chase", some 0, some "root", false⟩,
   ⟨"mice", some 2, some "dobj", false⟩]

/-- The graph the conversion builds from `demoSentence`. -/
def demoGraph : DependencyGraph :=
  ⟨[⟨⟨"Cats", some 2, some "nsubj", false⟩, 0⟩,
    ⟨⟨"chase", some 0, some "root", false⟩, 1⟩,
    ⟨⟨"mice", some 2, some "dobj", false⟩, 2⟩],
   [(1, 0, "nsubj"), (1, 2, "dobj")]⟩

/-- A cursor whose store is empty. -/
def emptyCursor : Cursor := ⟨[], 0, 0⟩

/-- A cursor holding one graph, selected at index 0. -/
def oneGraphCursor : Cursor := ⟨[gAB], 0, 0⟩

/-- Whether a token passes the edge loop without panicking, given `n`
nodes: relation present, head present, and head either 0 or in range. -/
def tokOkB (n : Nat) (t : Token) : Bool :=
  t.headRel.isSome &&
    (match t.head with
     | some h => (h == 0) || decide (h - 1 < n)
     | none => false)

/-- The cursor index is 0 or in range; the inductive invariant maintained
by every operation. -/
def cursorInv (st : Cursor) : Prop :=
  st.idx = 0 ∨ st.idx < st.treebank.length

theorem get?_isSome_iff {α : Type} (l : List α) (n : Nat) :
    (l.get? n).isSome ↔ n < l.length := by
  rw [List.get?_eq_getElem?]
  constructor
  · intro h
    by_contra hn
    rw [List.getElem?_len_le (Nat.le_of_not_lt hn)] at h
    simp at h
  · intro h
    rw [List.getElem?_eq_getElem h]
    rfl

theorem set_idx_treebank (st : Cursor) (i : Nat) :
    (st.set_idx i).treebank = st.treebank := by
  unfold Cursor.set_idx
  by_cases h : i < st.treebank.length <;> simp [h]

theorem set_idx_events (st : Cursor) (i : Nat) :
    (st.set_idx i).events = st.events + 1 := by
  unfold Cursor.set_idx
  by_cases h : i < st.treebank.length <;> simp [h]

theorem set_idx_inv (st : Cursor) (i : Nat) (h : cursorInv st) :
    cursorInv (st.set_idx i) := by
  unfold Cursor.set_idx
  by_cases hi : i < st.treebank.length
  · right
    simp [hi]
  · rcases h with h | h
    · left
      simpa [hi] using h
    · right
      simpa [hi] using h

theorem applyOp_inv (st : Cursor) (op : CursorOp) (h : cursorInv st) :
    cursorInv (applyOp st op) := by
  cases op with
  | push g =>
    rcases h with h | h
    · left
      simpa [applyOp, Cursor.push] using h
    · right
      simp only [applyOp, Cursor.push, List.length_append, List.length_cons,
        List.length_nil]
      omega
  | first => exact set_idx_inv _ _ h
  | next => exact set_idx_inv _ _ h
  | previous => exact set_idx_inv _ _ h

theorem foldl_applyOp_inv (ops : List CursorOp) (st : Cursor) (h : cursorInv st) :
    cursorInv (ops.foldl applyOp st) := by
  induction ops generalizing st with
  | nil => exact h
  | cons op rest ih => exact ih _ (applyOp_inv _ _ h)

/-- C8: whenever the store is non-empty, `0 ≤ idx < len` holds, and the
invariant is preserved by every sequence of `push`, `first`, `next`,
`previous` starting from the initial (empty) cursor state. -/
theorem cursor_index_invariant (ops : List CursorOp)
    (h : (runOps ops).treebank ≠ []) :
    (runOps ops).idx < (runOps ops).treebank.length := by
  have inv : cursorInv (runOps ops) :=
    foldl_applyOp_inv ops initialCursor (Or.inl rfl)
  rcases inv with h0 | hlt
  · rw [h0]
    exact List.length_pos.mpr h
  · exact hlt

/-- Witness for C8 on the concrete run `push gAB; next; previous`. -/
theorem cursor_index_invariant_witness :
    (runOps [CursorOp.push gAB, CursorOp.next, CursorOp.previous]).idx <
      (runOps [CursorOp.push gAB, CursorOp.next, CursorOp.previous]).treebank.length :=
  cursor_index_invariant [CursorOp.push gAB, CursorOp.next, CursorOp.previous]
    (by decide)

/-- C4 (code bug): with one stored graph selected at index 0, `next()` and
`previous()` leave `idx` and the store unchanged, yet each still runs a
full `callbacks()` pass — `set_idx` fires unconditionally — and
`previous()` computes the wrapping `usize` subtraction `0 - 1 = 2^64 - 1`,
contradicting the claimed total no-op with zero events and no
underflow. -/
theorem noop_navigation_fires_callbacks_bug :
    (oneGraphCursor.next).idx = oneGraphCursor.idx ∧
    (oneGraphCursor.next).treebank = oneGraphCursor.treebank ∧
    (oneGraphCursor.next).events = oneGraphCursor.events + 1 ∧
    (oneGraphCursor.previous).idx = oneGraphCursor.idx ∧
    (oneGraphCursor.previous).treebank = oneGraphCursor.treebank ∧
    (oneGraphCursor.previous).events = oneGraphCursor.events + 1 ∧
    prevIdx 0 = usizeSize - 1 := by
  decide

/-- C6 (code bug): on an empty store, `first()` leaves `idx` and the store
unchanged but still runs a `callbacks()` pass (`set_idx` fires
unconditionally), contradicting the claimed complete no-op with zero
events; on a non-empty store it sets `idx` to 0 and fires, as claimed. -/
theorem first_on_empty_fires_callbacks_bug :
    (emptyCursor.first).idx = emptyCursor.idx ∧
    (emptyCursor.first).treebank = emptyCursor.treebank ∧
    (emptyCursor.first).events = emptyCursor.events + 1 ∧
    (oneGraphCursor.first).idx = 0 ∧
    (oneGraphCursor.first).events = oneGraphCursor.events + 1 := by
  decide

/-- C5: `push(g)` appends to the store, fires one `TreebankLen`, fires
`TreeSelection` iff the store was empty before, and leaves `idx` at its
prior value; from an empty cursor, `push g1` makes `graph()` yield `g1`,
and a second `push g2` leaves `graph() = g1`, fires one more
`TreebankLen`, and no `TreeSelection`. -/
theorem push_events_spec (st : EventCursor) (g1 g2 : DependencyGraph) :
    ((st.push g1).treebank = st.treebank ++ [g1]) ∧
    ((st.push g1).idx = st.idx) ∧
    ((st.push g1).lenEvents = st.lenEvents + 1) ∧
    (st.treebank = [] → (st.push g1).selEvents = st.selEvents + 1) ∧
    (st.treebank ≠ [] → (st.push g1).selEvents = st.selEvents) ∧
    (st.treebank = [] → st.idx = 0 →
      ((st.push g1).graphAt = some g1 ∧
       ((st.push g1).push g2).graphAt = some g1 ∧
       ((st.push g1).push g2).selEvents = (st.push g1).selEvents ∧
       ((st.push g1).push g2).lenEvents = (st.push g1).lenEvents + 1)) := by
  refine ⟨rfl, rfl, rfl, ?_, ?_, ?_⟩
  · intro h
    simp [EventCursor.push, h]
  · intro h
    simp [EventCursor.push, List.isEmpty_iff, h]
  · intro h h0
    refine ⟨?_, ?_, ?_, rfl⟩
    · simp [EventCursor.push, EventCursor.graphAt, h, h0]
    · simp [EventCursor.push, EventCursor.graphAt, h, h0]
    · simp [EventCursor.push, h, List.isEmpty_iff]

/-- Witness for C5: the empty-store scenario at concrete graphs. -/
theorem push_events_spec_witness :
    ((EventCursor.mk [] 0 0 0).push gAB).graphAt = some gAB ∧
    (((EventCursor.mk [] 0 0 0).push gAB).push gQuote).graphAt = some gAB ∧
    (((EventCursor.mk [] 0 0 0).push gAB).push gQuote).selEvents =
      ((EventCursor.mk [] 0 0 0).push gAB).selEvents ∧
    (((EventCursor.mk [] 0 0 0).push gAB).push gQuote).lenEvents =
      ((EventCursor.mk [] 0 0 0).push gAB).lenEvents + 1 :=
  (push_events_spec ⟨[], 0, 0, 0⟩ gAB gQuote).2.2.2.2.2 rfl rfl

/-- C9: a requested export is written to `s<idx + 1>.dot` (resp.
`s<idx + 1>.tikz`) for the currently selected sentence; with an empty
store it fails with `NoGraphSelected` and produces no file. -/
theorem export_filenames_and_empty_error (st : Cursor) :
    (st.treebank = [] →
      save_dot st = Except.error ViewerError.NoGraphSelected ∧
      save_tikz st = Except.error ViewerError.NoGraphSelected) ∧
    (st.idx < st.treebank.length →
      (∃ c, save_dot st = Except.ok ("s" ++ toString (st.idx + 1) ++ ".dot", c)) ∧
      (∃ c, save_tikz st = Except.ok ("s" ++ toString (st.idx + 1) ++ ".tikz", c))) := by
  constructor
  · intro h
    have hg : st.graphAt = none := by
      simp [Cursor.graphAt, h]
    constructor <;> simp [save_dot, save_tikz, hg]
  · intro h
    have hs : (st.treebank.get? st.idx).isSome := (get?_isSome_iff _ _).mpr h
    obtain ⟨g, hg⟩ := Option.isSome_iff_exists.mp hs
    have hga : st.graphAt = some g := hg
    exact ⟨⟨graphToDot g, by simp [save_dot, hga]⟩,
           ⟨graphToTikz g, by simp [save_tikz, hga]⟩⟩

/-- Witness for C9 at an empty cursor and a one-graph cursor. -/
theorem export_filenames_and_empty_error_witness :
    (save_dot emptyCursor = Except.error ViewerError.NoGraphSelected ∧
     save_tikz emptyCursor = Except.error ViewerError.NoGraphSelected) ∧
    ((∃ c, save_dot oneGraphCursor =
        Except.ok ("s" ++ toString (oneGraphCursor.idx + 1) ++ ".dot", c)) ∧
     (∃ c, save_tikz oneGraphCursor =
        Except.ok ("s" ++ toString (oneGraphCursor.idx + 1) ++ ".tikz", c))) :=
  ⟨(export_filenames_and_empty_error emptyCursor).1 rfl,
   (export_filenames_and_empty_error oneGraphCursor).2 (by decide)⟩

/-- C10: `tokens()`, `handle()` and `dependency_tree_dot()` index the
store at `idx` with no bounds check: they produce a value exactly when
`idx < len`, and on an empty store each reaches the out-of-range access
(modelled as `none`) instead of returning an error value. -/
theorem accessors_require_nonempty (st : Cursor) :
    (st.tokensAt.isSome ↔ st.idx < st.treebank.length) ∧
    (st.handleDot.isSome ↔ st.idx < st.treebank.length) ∧
    (st.dependencyTreeDot.isSome ↔ st.idx < st.treebank.length) ∧
    (st.treebank = [] →
      st.tokensAt = none ∧ st.handleDot = none ∧ st.dependencyTreeDot = none) := by
  have key := get?_isSome_iff st.treebank st.idx
  have hmap : ∀ {β : Type} (f : DependencyGraph → β),
      ((st.treebank.get? st.idx).map f).isSome = (st.treebank.get? st.idx).isSome := by
    intro β f
    cases st.treebank.get? st.idx <;> rfl
  refine ⟨?_, ?_, ?_, ?_⟩
  · rw [Cursor.tokensAt, hmap]
    exact key
  · rw [Cursor.handleDot, hmap]
    exact key
  · rw [Cursor.dependencyTreeDot, hmap]
    exact key
  · intro h
    refine ⟨?_, ?_, ?_⟩ <;>
      simp [Cursor.tokensAt, Cursor.handleDot, Cursor.dependencyTreeDot, h]

/-- Witness for C10 at an empty cursor. -/
theorem accessors_require_nonempty_witness :
    emptyCursor.tokensAt = none ∧ emptyCursor.handleDot = none ∧
    emptyCursor.dependencyTreeDot = none :=
  (accessors_require_nonempty emptyCursor).2.2.2 rfl

theorem depedge_foldl (es : List (Nat × Nat × String)) (s : String) :
    es.foldl (fun acc e =>
      acc ++ "\\depedge\x7b" ++ toString (e.1 + 1) ++ "\x7d\x7b" ++ toString (e.2.1 + 1)
        ++ "\x7d\x7b" ++ escapeStr e.2.2 ++ "\x7d\n") s
    = s ++ depedgeBlock es := by
  induction es generalizing s with
  | nil => simp [depedgeBlock, String.append_empty]
  | cons e tl ih =>
    rw [List.foldl_cons, ih]
    simp [depedgeBlock, depedgeCmd, String.append_assoc]

/-- C2 (counterexample): the form `A"B` appears quote-escaped in the DOT
output but unescaped in the TikZ output — the two serializers do not
escape identically. -/
theorem tikz_form_unescaped_cex :
    ("A\\\"B".data <:+: (graphToDot gQuote).data) ∧
    ¬ ("A\\\"B".data <:+: (graphToTikz gQuote).data) ∧
    ("A\"B".data <:+: (graphToTikz gQuote).data) := by
  decide

/-- C2 (amended): `escape_str` rewrites only the double-quote character;
it is applied to DOT node labels, DOT edge labels and TikZ edge relation
labels, but TikZ `deptext` node forms are emitted unescaped, so a form
`A"B` serializes as `A\"B` in DOT and as the raw `A"B` in TikZ. -/
theorem escape_quote_only_amended :
    (∀ l : List Char, '"' ∉ l → escapeChars l = l) ∧
    escapeStr "A\"B" = "A\\\"B" ∧
    ("A\\\"B".data <:+: (graphToDot gQuote).data) ∧
    ("X\\\"Y".data <:+: (graphToDot gEdgeQuote).data) ∧
    ("X\\\"Y".data <:+: (graphToTikz gEdgeQuote).data) ∧
    ("A\"B".data <:+: (graphToTikz gQuote).data) ∧
    ¬ ("A\\\"B".data <:+: (graphToTikz gQuote).data) := by
  refine ⟨?_, by rfl, by decide, by decide, by decide, by decide, by decide⟩
  intro l h
  induction l with
  | nil => rfl
  | cons c cs ih =>
    have hc : ¬ c = '"' := fun he => h (he ▸ List.mem_cons_self c cs)
    have hcs : '"' ∉ cs := fun hm => h (List.mem_cons_of_mem c hm)
    simp [escapeChars, hc, ih hcs]

/-- Witness for C2 (amended): a quote-free string passes `escape_str`
unchanged. -/
theorem escape_quote_only_amended_witness :
    escapeChars "xyz".data = "xyz".data :=
  escape_quote_only_amended.1 "xyz".data (by decide)

/-- C7 (counterexample): the `deptext` entries are joined by the LaTeX
escaped separator `" \& "`, not by `" & "`: for the forms `A` and `B`
the output contains `A \& B` and not `A & B`. -/
theorem tikz_sep_not_plain_amp_cex :
    ("A \\& B".data <:+: (graphToTikz gAB).data) ∧
    ¬ ("A & B".data <:+: (graphToTikz gAB).data) := by
  decide

/-- C7 (amended): the TikZ output is the fixed preamble, then the
`deptext` line with exactly one entry per node in node-index order — the
node's raw (unescaped) form, wrapped in `\underline` when marked — joined
by `" \& "`, then exactly one `\depedge` command per edge in edge-creation
order, each with 1-based source and target indices and the escaped
relation label, then the fixed postamble. -/
theorem tikz_structure_amended (g : DependencyGraph) :
    graphToTikz g =
      tikzPre ++ String.intercalate " \\& " (g.nodes.map tikzEntryOfNode)
        ++ tikzMid ++ depedgeBlock g.edges ++ tikzPost ∧
    (g.nodes.map tikzEntryOfNode).length = g.nodes.length := by
  constructor
  · have hentry : (fun nd : DependencyNode =>
        if nd.token.marked then "\\underline\x7b" ++ nd.token.form ++ "\x7d"
        else nd.token.form) = tikzEntryOfNode := by
      funext nd
      rfl
    unfold graphToTikz
    dsimp only
    rw [hentry, depedge_foldl]
    simp [tikzPre, tikzMid, tikzPost, String.append_assoc]
  · simp

theorem mkNodes_length (off : Nat) (s : List Token) :
    (mkNodes off s).length = s.length := by
  induction s generalizing off with
  | nil => rfl
  | cons t ts ih => simp [mkNodes, ih]

theorem mkNodes_map_token (off : Nat) (s : List Token) :
    (mkNodes off s).map DependencyNode.token = s := by
  induction s generalizing off with
  | nil => rfl
  | cons t ts ih => simp [mkNodes, ih]

theorem mkNodes_map_offset (off : Nat) (s : List Token) :
    (mkNodes off s).map DependencyNode.offset = List.range' off s.length := by
  induction s generalizing off with
  | nil => rfl
  | cons t ts ih => simp [mkNodes, ih, List.range'_succ]

theorem edgeListAux_ok_spec (l : List Token) (n : Nat) (off : Nat)
    (es : List (Nat × Nat × String))
    (h : edgeListAux n off l = Except.ok es) :
    es.length = (l.filter (fun t => t.head.getD 0 != 0)).length ∧
    (∀ e ∈ es, off ≤ e.2.1 ∧ e.2.1 < off + l.length) ∧
    (∀ j tok hd rel, l.get? j = some tok → tok.head = some hd → hd ≠ 0 →
      tok.headRel = some rel →
      es.filter (fun e => e.2.1 == off + j) = [(hd - 1, off + j, rel)]) := by
  induction l generalizing off es with
  | nil =>
    simp [edgeListAux] at h
    subst h
    refine ⟨rfl, by simp, ?_⟩
    intro j tok hd rel hj
    simp at hj
  | cons t ts ih =>
    cases hr : t.headRel with
    | none =>
      rw [edgeListAux, hr] at h
      exact absurd h (by simp)
    | some rel0 =>
      cases hh : t.head with
      | none =>
        rw [edgeListAux, hr, hh] at h
        exact absurd h (by simp)
      | some hd0 =>
        rw [edgeListAux, hr, hh] at h
        dsimp only at h
        by_cases h0 : hd0 = 0
        · rw [if_pos h0] at h
          obtain ⟨hlen, hrange, htgt⟩ := ih (off + 1) es h
          refine ⟨?_, ?_, ?_⟩
          · simpa [List.filter_cons, hh, h0] using hlen
          · intro e he
            have := hrange e he
            simp only [List.length_cons]
            omega
          · intro j tok hd rel hj hhd hne hrel
            cases j with
            | zero =>
              have ht : t = tok := by simpa using hj
              rw [← ht, hh] at hhd
              exact absurd ((Option.some.inj hhd).symm.trans h0) hne
            | succ j' =>
              have hj' : ts.get? j' = some tok := by simpa using hj
              have harith : (off + 1) + j' = off + (j' + 1) := by omega
              have := htgt j' tok hd rel hj' hhd hne hrel
              rw [harith] at this
              exact this
        · rw [if_neg h0] at h
          by_cases hb : hd0 - 1 < n
          · rw [if_pos hb] at h
            cases hrec : edgeListAux n (off + 1) ts with
            | error msg =>
              rw [hrec] at h
              exact absurd h (by simp [Except.map])
            | ok tl =>
              rw [hrec] at h
              have hes : es = (hd0 - 1, off, rel0) :: tl := by
                have : Except.ok ((hd0 - 1, off, rel0) :: tl)
                    = (Except.ok es : Except String _) := h
                exact (Except.ok.inj this).symm
              subst hes
              obtain ⟨hlen, hrange, htgt⟩ := ih (off + 1) tl hrec
              refine ⟨?_, ?_, ?_⟩
              · simpa [List.filter_cons, hh, h0] using hlen
              · intro e he
                rcases List.mem_cons.mp he with he | he
                · subst he
                  simp only [List.length_cons]
                  omega
                · have := hrange e he
                  simp only [List.length_cons]
                  omega
              · intro j tok hd rel hj hhd hne hrel
                cases j with
                | zero =>
                  have ht : t = tok := by simpa using hj
                  rw [← ht, hh] at hhd
                  rw [← ht, hr] at hrel
                  have hhd' : hd0 = hd := Option.some.inj hhd
                  have hrel' : rel0 = rel := Option.some.inj hrel
                  subst hhd'
                  subst hrel'
                  simp only [Nat.add_zero, List.filter_cons, beq_self_eq_true,
                    if_true, List.cons.injEq, true_and]
                  rw [List.filter_eq_nil_iff]
                  intro e he
                  have := hrange e he
                  simp only [beq_iff_eq]
                  omega
                | succ j' =>
                  have hj' : ts.get? j' = some tok := by simpa using hj
                  have harith : (off + 1) + j' = off + (j' + 1) := by omega
                  have hfirst : ((off : Nat) == off + (j' + 1)) = false := by
                    simp only [beq_eq_false_iff_ne, ne_eq]
                    omega
                  have := htgt j' tok hd rel hj' hhd hne hrel
                  rw [harith] at this
                  simp only [List.filter_cons, hfirst, if_false]
                  simpa using this
          · rw [if_neg hb] at h
            exact absurd h (by simp)

/-- C1: when the conversion of a sentence succeeds, the graph has exactly
one node per token in input order (offsets `0..n-1`), exactly one edge per
token with a non-zero head, and for every such token at offset `i` with
head `h` exactly one edge targets `node(i)` — it has source `node(h - 1)`
and carries the token's relation. -/
theorem build_graph_nodes_edges (s : List Token) (g : DependencyGraph)
    (h : fromSentence s = Except.ok g) :
    g.nodes.length = s.length ∧
    g.nodes.map DependencyNode.token = s ∧
    g.nodes.map DependencyNode.offset = List.range s.length ∧
    g.edges.length = (s.filter (fun t => t.head.getD 0 != 0)).length ∧
    (∀ i tok hd rel, s.get? i = some tok → tok.head = some hd → hd ≠ 0 →
      tok.headRel = some rel →
      g.edges.filter (fun e => e.2.1 == i) = [(hd - 1, i, rel)]) := by
  unfold fromSentence at h
  cases hrec : edgeListAux s.length 0 s with
  | error msg =>
    rw [hrec] at h
    exact absurd h (by simp [Except.map])
  | ok es =>
    rw [hrec] at h
    have hg : g = ⟨mkNodes 0 s, es⟩ := by
      have : Except.ok (⟨mkNodes 0 s, es⟩ : DependencyGraph)
          = (Except.ok g : Except String _) := h
      exact (Except.ok.inj this).symm
    subst hg
    obtain ⟨hlen, -, htgt⟩ := edgeListAux_ok_spec s s.length 0 es hrec
    refine ⟨mkNodes_length 0 s, mkNodes_map_token 0 s, ?_, hlen, ?_⟩
    · rw [mkNodes_map_offset, List.range_eq_range']
    · intro i tok hd rel hi hhd hne hrel
      have := htgt i tok hd rel hi hhd hne hrel
      simpa using this

theorem edgeListAux_append_error (n : Nat) (msg : String)
    (pre rest : List Token)
    (hok : ∀ t ∈ pre, tokOkB n t = true) :
    ∀ off : Nat, edgeListAux n (off + pre.length) rest = Except.error msg →
    edgeListAux n off (pre ++ rest) = Except.error msg := by
  induction pre with
  | nil =>
    intro off he
    simpa using he
  | cons t pre' ih =>
    intro off he
    have ht := hok t (List.mem_cons_self t pre')
    have hok' : ∀ t ∈ pre', tokOkB n t = true :=
      fun t htm => hok t (List.mem_cons_of_mem _ htm)
    cases hr : t.headRel with
    | none => simp [tokOkB, hr] at ht
    | some rel0 =>
      cases hh : t.head with
      | none => simp [tokOkB, hr, hh] at ht
      | some hd0 =>
        have harith : off + (t :: pre').length = (off + 1) + pre'.length := by
          simp only [List.length_cons]
          omega
        rw [harith] at he
        have hrec := ih hok' (off + 1) he
        show edgeListAux n off (t :: (pre' ++ rest)) = Except.error msg
        rw [edgeListAux, hr, hh]
        dsimp only
        simp only [tokOkB, hr, hh, Option.isSome_some, Bool.true_and] at ht
        by_cases h0 : hd0 = 0
        · rw [if_pos h0]
          exact hrec
        · have hb : hd0 - 1 < n := by
            rcases (Bool.or_eq_true _ _).mp ht with h | h
            · exact absurd (beq_iff_eq.mp h) h0
            · exact of_decide_eq_true h
          rw [if_neg h0, if_pos hb, hrec]
          rfl

/-- C3 (counterexample): a root token (`head = 0`) whose relation is
absent makes the conversion fail with the `expect` panic "Dependency
relation missing", while the claim says a root token with no relation
does not fail. -/
theorem root_missing_relation_fails_cex :
    fromSentence [⟨"a", some 0, none, false⟩] =
      Except.error "Dependency relation missing" := by
  rfl

/-- C3 (amended): the conversion checks each token's relation before its
head; once every earlier token has passed the loop, a token with an absent
relation fails with the panic "Dependency relation missing" regardless of
its head (root tokens included), and a token with a relation but an absent
head fails with the panic "Token does not have a head"; the whole
conversion aborts (an `expect` panic), rather than returning a
per-sentence error value named `MissingRelation`/`MissingHead`. -/
theorem construction_failure_messages_amended
    (pre : List Token) (tok : Token) (post : List Token)
    (hok : ∀ t ∈ pre, tokOkB (pre ++ tok :: post).length t = true) :
    (tok.headRel = none →
      fromSentence (pre ++ tok :: post) =
        Except.error "Dependency relation missing") ∧
    (∀ r, tok.headRel = some r → tok.head = none →
      fromSentence (pre ++ tok :: post) =
        Except.error "Token does not have a head") := by
  constructor
  · intro hr
    have hstep : edgeListAux (pre ++ tok :: post).length (0 + pre.length)
        (tok :: post) = Except.error "Dependency relation missing" := by
      rw [edgeListAux, hr]
    have hall := edgeListAux_append_error (pre ++ tok :: post).length
      "Dependency relation missing" pre (tok :: post) hok 0 hstep
    unfold fromSentence
    rw [hall]
    rfl
  · intro r hr hh
    have hstep : edgeListAux (pre ++ tok :: post).length (0 + pre.length)
        (tok :: post) = Except.error "Token does not have a head" := by
      rw [edgeListAux, hr, hh]
    have hall := edgeListAux_append_error (pre ++ tok :: post).length
      "Token does not have a head" pre (tok :: post) hok 0 hstep
    unfold fromSentence
    rw [hall]
    rfl

/-- Witness for C3 (amended): a single token with a relation but no head
value fails with the missing-head panic message. -/
theorem construction_failure_messages_amended_witness :
    fromSentence [Token.mk "b" none (some "x") false] =
      Except.error "Token does not have a head" :=
  (construction_failure_messages_amended [] ⟨"b", none, some "x", false⟩ []
    (by simp)).2 "x" rfl rfl

/-- Witness for C1 at the spec's example sentence. -/
theorem build_graph_nodes_edges_witness :
    demoGraph.nodes.length = demoSentence.length ∧
    demoGraph.nodes.map DependencyNode.token = demoSentence ∧
    demoGraph.nodes.map DependencyNode.offset = List.range demoSentence.length ∧
    demoGraph.edges.length =
      (demoSentence.filter (fun t => t.head.getD 0 != 0)).length ∧
    (∀ i tok hd rel, demoSentence.get? i = some tok → tok.head = some hd →
      hd ≠ 0 → tok.headRel = some rel →
      demoGraph.edges.filter (fun e => e.2.1 == i) = [(hd - 1, i, rel)]) :=
  build_graph_nodes_edges demoSentence demoGraph (by rfl)
